import Mathlib

/-!
Verification of the fntools function-combinator library against its
specification.  The stable fixed-arity wrappers (`src/lib.rs`) and the
variadic `Chain` engine (`src/unstable/chain.rs`) together with the
extension surface (`src/unstable/ext.rs`) are embedded directly from the
source.  The helper modules that the source declares but whose files are
not part of the packaged sources (`auto_tuple`, `flip_tuple`/`tuple`,
`unstable::compose`, `curry`, `flip`, `supply`, `untuple`, `unit`) are
modelled from the specification, each marked `Modelled from the spec:` in
its doc comment.

Rust argument tuples are embedded as: arity 0 = `Unit`, arity 1 =
`Tuple1 α` (a genuine one-element wrapper, distinct from `α`), arity 2 =
`α × β`, arity 3 = `α × β × γ` (right-nested products, so the rest of a
triple after removing the head is exactly the arity-2 pair, matching the
Rust per-arity tuple family).
-/

namespace Fntools

/-- A one-element tuple, the embedding of the Rust tuple type with a single
component.  It is a distinct wrapper so that wrapping a value is never the
identity, exactly as a Rust one-element tuple is distinct from its field. -/
structure Tuple1 (α : Type) where
  fst : α
deriving DecidableEq, Repr

/-! ## Stable fixed-arity wrappers, embedded from src/lib.rs -/

/-- Embedded from src/lib.rs lines 57-63: `compose(f, g) = move |a| f(g(a))`. -/
def compose {A B C : Type} (f : B → C) (g : A → B) : A → C :=
  fun a => f (g a)

/-- Embedded from src/lib.rs lines 100-106: `chain(f, g) = move |a| g(f(a))`. -/
def chain {A B C : Type} (f : A → B) (g : B → C) : A → C :=
  fun a => g (f a)

/-- Embedded from src/lib.rs lines 119-124: `flip_args(f) = move |b, a| f(a, b)`. -/
def flip_args {A B R : Type} (f : A → B → R) : B → A → R :=
  fun b a => f a b

/-- Embedded from src/lib.rs lines 140-146: `product(f, g) = move |a, x| (f(a), g(x))`. -/
def product {A B X Y : Type} (f : A → B) (g : X → Y) : A → X → B × Y :=
  fun a x => (f a, g x)

/-! ## AutoTuple conversion

Modelled from the spec (the source file `src/auto_tuple.rs` is declared in
lib.rs but not packaged): conversion of an output value into the argument
tuple shape of the next callable.  Rules in priority order: arity 1 wraps
the value unconditionally; arity 0 accepts only the unit value; arity
n >= 2 requires the value to already be an n-tuple and passes its elements
through positionally unchanged. -/
class AutoTuple (B : Type) (C : Type) where
  auto_tuple : B → C

/-- Modelled from the spec: arity-1 rule, wrap the value as the single
element, unconditionally, never decomposing it. -/
instance autoTupleArity1 {B : Type} : AutoTuple B (Tuple1 B) :=
  ⟨fun b => ⟨b⟩⟩

/-- Modelled from the spec: arity-0 rule, only the unit value converts, to
the empty tuple. -/
instance autoTupleArity0 : AutoTuple Unit Unit :=
  ⟨fun u => u⟩

/-- Modelled from the spec: arity-2 rule, a pair is reinterpreted
elementwise, positionally unchanged. -/
instance autoTupleArity2 {α β : Type} : AutoTuple (α × β) (α × β) :=
  ⟨fun p => p⟩

/-- Modelled from the spec: arity-3 rule, a triple is reinterpreted
elementwise, positionally unchanged. -/
instance (priority := 2000) autoTupleArity3 {α β γ : Type} :
    AutoTuple (α × β × γ) (α × β × γ) :=
  ⟨fun p => p⟩

/-! ## The variadic Chain engine, embedded from src/unstable/chain.rs -/

/-- Embedded from src/unstable/chain.rs line 93:
`pub struct Chain<F, G, C>(F, G, PhantomData<dyn Fn(C)>)`.
The phantom parameter `C` (the argument tuple type of `g`) is kept as an
unused type parameter. -/
structure Chain (F G : Type) (C : Type) where
  f : F
  g : G

namespace Chain

/-- Embedded from src/unstable/chain.rs lines 95-104: `Chain::new`. -/
def new {A B C D : Type} [AutoTuple B C] (f : A → B) (g : C → D) :
    Chain (A → B) (C → D) C :=
  ⟨f, g⟩

/-- Embedded from src/unstable/chain.rs lines 106-122, the `FnOnce` impl:
destructure the pair, run `f` on the argument tuple, auto-tuple its output,
run `g`, return the output of `g`. -/
def call_once {A B C D : Type} [AutoTuple B C]
    (self : Chain (A → B) (C → D) C) (args : A) : D :=
  let b : B := self.f args
  let c : C := AutoTuple.auto_tuple b
  let d : D := self.g c
  d

end Chain

/-- Embedded from src/unstable/chain.rs lines 64-71: the free function
`chain(f, g) = Chain::new(f, g)` of the variadic engine. -/
def uchain {A B C D : Type} [AutoTuple B C] (f : A → B) (g : C → D) :
    Chain (A → B) (C → D) C :=
  Chain.new f g

/-! ## Compose

Modelled from the spec (the source file `src/unstable/compose.rs` is
imported by ext.rs but not packaged): `Compose(f, g)` has the arity of
`g`; it invokes `g` first, auto-tuples the output of `g` into the argument
tuple shape `f` expects, invokes `f`, and returns the output of `f`. -/
structure Compose (F G : Type) (C : Type) where
  f : F
  g : G

namespace Compose

/-- Modelled from the spec: constructor of `Compose`, mirror of
`Chain::new`. -/
def new {A B C D : Type} [AutoTuple B C] (f : C → D) (g : A → B) :
    Compose (C → D) (A → B) C :=
  ⟨f, g⟩

/-- Modelled from the spec: `Compose` invocation, `g` first, auto-tuple,
then `f`. -/
def call_once {A B C D : Type} [AutoTuple B C]
    (self : Compose (C → D) (A → B) C) (args : A) : D :=
  let b : B := self.g args
  let c : C := AutoTuple.auto_tuple b
  let d : D := self.f c
  d

end Compose

/-! ## TupleTake and Supply

Modelled from the spec (the source files `src/tuple/take.rs` and
`src/unstable/supply.rs` are imported by ext.rs but not packaged):
`take_first(tuple) -> (head, rest)` splits an argument tuple of arity >= 1
into its first element and the remaining tuple in original order;
`supply(f, argument)` binds `argument` as the first parameter of `f` using
the inverse of `take_first` and returns a callable over the remaining
`arity - 1` arguments. -/
class TupleTake (T : Type) where
  Take : Type
  Rest : Type
  take : T → Take × Rest
  untake : Take → Rest → T

attribute [reducible] TupleTake.Take TupleTake.Rest

/-- Modelled from the spec: taking from an arity-1 tuple leaves the empty
tuple. -/
@[reducible] instance tupleTake1 {α : Type} : TupleTake (Tuple1 α) :=
  ⟨α, Unit, fun t => (t.fst, ()), fun a _ => ⟨a⟩⟩

/-- Modelled from the spec: taking from an arity-2 tuple leaves an arity-1
tuple. -/
@[reducible] instance tupleTake2 {α β : Type} : TupleTake (α × β) :=
  ⟨α, Tuple1 β, fun t => (t.1, ⟨t.2⟩), fun a r => (a, r.fst)⟩

/-- Modelled from the spec: taking from an arity-3 tuple leaves an arity-2
tuple in original order. -/
@[reducible] instance (priority := 2000) tupleTake3 {α β γ : Type} : TupleTake (α × β × γ) :=
  ⟨α, β × γ, fun t => (t.1, t.2), fun a r => (a, r)⟩

/-- Modelled from the spec: `supply(f, argument)` returns the callable over
the remaining arguments that prepends `argument` (via the inverse of
`take_first`) and invokes `f`. -/
def supply {T R : Type} [TupleTake T] (f : T → R) (a : TupleTake.Take T) :
    TupleTake.Rest T → R :=
  fun rest => f (TupleTake.untake a rest)

/-! ## FlipTuple and Flip

Modelled from the spec (the source files `src/tuple/flip.rs` and
`src/unstable/flip.rs` are imported by ext.rs but not packaged):
`reverse(tuple)` yields the same elements in reverse position order, with
arity 0 and 1 reversing to themselves; `flip(f)` accepts the reversed
argument tuple and delegates to `f` with the original order restored. -/
class FlipTuple (T : Type) where
  Flipped : Type
  flip : T → Flipped

attribute [reducible] FlipTuple.Flipped

/-- Modelled from the spec: arity 0 reverses to itself. -/
@[reducible] instance flipTuple0 : FlipTuple Unit :=
  ⟨Unit, fun u => u⟩

/-- Modelled from the spec: arity 1 reverses to itself. -/
@[reducible] instance flipTuple1 {α : Type} : FlipTuple (Tuple1 α) :=
  ⟨Tuple1 α, fun t => t⟩

/-- Modelled from the spec: arity-2 reversal. -/
@[reducible] instance flipTuple2 {α β : Type} : FlipTuple (α × β) :=
  ⟨β × α, fun t => (t.2, t.1)⟩

/-- Modelled from the spec: arity-3 reversal. -/
@[reducible] instance (priority := 2000) flipTuple3 {α β γ : Type} : FlipTuple (α × β × γ) :=
  ⟨γ × β × α, fun t => (t.2.2, t.2.1, t.1)⟩

/-- Modelled from the spec: `flip(f)` is the callable that accepts the
argument tuple `A`, reverses it, and delegates to `f`, which expects the
reversed tuple.  The argument tuple type of the flipped callable is given
explicitly, as in the Rust impl where the caller determines it. -/
def flip (A : Type) {R : Type} [FlipTuple A] (f : FlipTuple.Flipped A → R) :
    A → R :=
  fun args => f (FlipTuple.flip args)

/-! ## Curry

Modelled from the spec (the source file `src/unstable/curry.rs` is
imported by ext.rs but not packaged): a curry value holds the wrapped
callable and an accumulator tuple of length k; supplying one argument at
state k < n yields a curry value at state k + 1 with the argument
appended, and supplying an argument at state n - 1 completes the tuple and
immediately invokes the wrapped callable with it.  The per-arity
transition functions below embed the states for target arities up to 3,
generically in the element types. -/
structure Curry (T F : Type) where
  acc : T
  f : F

/-- Modelled from the spec: the initial curry state, empty accumulator. -/
def curry {F : Type} (f : F) : Curry Unit F :=
  ⟨(), f⟩

namespace Curry

/-- Modelled from the spec: transition from state 0 toward target arity 3
(one argument appended, callable untouched). -/
def app3_0 {α β γ ρ : Type} (c : Curry Unit (α × β × γ → ρ)) (a : α) :
    Curry (Tuple1 α) (α × β × γ → ρ) :=
  ⟨⟨a⟩, c.f⟩

/-- Modelled from the spec: transition from state 1 toward target arity 3. -/
def app3_1 {α β γ ρ : Type} (c : Curry (Tuple1 α) (α × β × γ → ρ)) (b : β) :
    Curry (α × β) (α × β × γ → ρ) :=
  ⟨(c.acc.fst, b), c.f⟩

/-- Modelled from the spec: terminal firing at target arity 3, the third
argument completes the accumulator and the wrapped callable is invoked
with the full tuple. -/
def app3_2 {α β γ ρ : Type} (c : Curry (α × β) (α × β × γ → ρ)) (x : γ) : ρ :=
  c.f (c.acc.1, c.acc.2, x)

/-- Modelled from the spec: transition from state 0 toward target arity 2. -/
def app2_0 {α β ρ : Type} (c : Curry Unit (α × β → ρ)) (a : α) :
    Curry (Tuple1 α) (α × β → ρ) :=
  ⟨⟨a⟩, c.f⟩

/-- Modelled from the spec: terminal firing at target arity 2. -/
def app2_1 {α β ρ : Type} (c : Curry (Tuple1 α) (α × β → ρ)) (b : β) : ρ :=
  c.f (c.acc.fst, b)

end Curry

/-! ## Untuple

Modelled from the spec (the source file `src/unstable/untuple.rs` is
imported by ext.rs but not packaged): `untuple(g)` adapts between the
one-tuple-argument and flat-arguments calling conventions; the adapted
callable accepts the one-element argument tuple holding the whole tuple
and spreads it into the flat arguments of `g`. -/
def untuple {T R : Type} (g : T → R) : Tuple1 T → R :=
  fun t => g t.fst

/-! ## Extension surface, embedded from src/unstable/ext.rs -/

namespace FnExt

/-- Embedded from src/unstable/ext.rs lines 52-58: `.chain` requires the
continuation `g` to be a callable over the one-element argument tuple
`(Self::Output,)` and forwards to the free `chain`. -/
def chainM {A B D : Type} (f : A → B) (g : Tuple1 B → D) :
    Chain (A → B) (Tuple1 B → D) (Tuple1 B) :=
  uchain f g

/-- Embedded from src/unstable/ext.rs lines 74-80: `.chain_ut` is
`self.chain(untuple(g))`, the continuation taking the output tuple of
`self` as flat arguments. -/
def chain_ut {A B D : Type} (f : A → B) (g : B → D) :
    Chain (A → B) (Tuple1 B → D) (Tuple1 B) :=
  chainM f (untuple g)

/-- Embedded from src/unstable/ext.rs lines 102-108: `.compose` forwards to
the free `compose` with `self` as the outer callable. -/
def composeM {A B D : Type} (f : Tuple1 B → D) (g : A → B) :
    Compose (Tuple1 B → D) (A → B) (Tuple1 B) :=
  Compose.new f g

/-- Embedded from src/unstable/ext.rs lines 166-172: `.supply` forwards to
the free `supply`. -/
def supplyM {T R : Type} [TupleTake T] (f : T → R) (argument : TupleTake.Take T) :
    TupleTake.Rest T → R :=
  supply f argument

/-- Embedded from src/unstable/ext.rs lines 206-211: `.curry` forwards to
the free `curry`, starting from the empty accumulator `()`. -/
def curryM {F : Type} (f : F) : Curry Unit F :=
  curry f

end FnExt

/-! ## Invocation capabilities

The three Rust invocation paths of the engine (`FnOnce::call_once`,
`FnMut::call_mut`, `Fn::call`) are embedded as a bundle of three
state-passing functions over an explicit captured-state type `S`:
consume-once takes the state by value and returns only the output,
mutate-and-reinvoke returns the output with the successor state, and
read-only-reinvoke leaves the state untouched. -/
structure Callable (S A B : Type) where
  call_once : S → A → B
  call_mut : S → A → B × S
  call : S → A → B

/-- The laws the Rust `Fn` trait hierarchy guarantees for a callable that
implements `Fn` (read-only-reinvocable): `call_mut` and `call_once` both
delegate to `call`, leaving the state unchanged. -/
def Callable.IsFn {S A B : Type} (c : Callable S A B) : Prop :=
  (∀ s a, c.call_mut s a = (c.call s a, s)) ∧
  (∀ s a, c.call_once s a = c.call s a)

/-- A stateless callable built from a pure function: all three invocation
paths run the function and the (uninformative) state is never changed. -/
def pureCallable {S A B : Type} (f : A → B) : Callable S A B :=
  ⟨fun _ a => f a, fun s a => (f a, s), fun _ a => f a⟩

/-- Embedded from src/unstable/chain.rs lines 106-154: the three impls of
`Chain` as one `Callable` over the product of the captured states.
`call_once` destructures and forwards by value (lines 115-121), `call_mut`
forwards through `call_mut` of both parts threading the mutated states
(lines 131-137), and `call` forwards through `call` of both parts with the
states untouched (lines 147-153); each path auto-tuples the output of `f`
before invoking `g`. -/
def chainCallable {Sf Sg A B C D : Type} [AutoTuple B C]
    (cf : Callable Sf A B) (cg : Callable Sg C D) :
    Callable (Sf × Sg) A D where
  call_once := fun s args =>
    let b : B := cf.call_once s.1 args
    let c : C := AutoTuple.auto_tuple b
    cg.call_once s.2 c
  call_mut := fun s args =>
    let bs : B × Sf := cf.call_mut s.1 args
    let c : C := AutoTuple.auto_tuple bs.1
    let ds : D × Sg := cg.call_mut s.2 c
    (ds.1, (bs.2, ds.2))
  call := fun s args =>
    let b : B := cf.call s.1 args
    let c : C := AutoTuple.auto_tuple b
    cg.call s.2 c

/-! ## The i32 model

`i32::overflowing_add` from the Rust standard library, embedded on `Int`
with explicit wrapping at 2^32 into the twos-complement range: the first
component is the wrapped sum, the second is the overflow flag, true
exactly when the wrapped sum differs from the mathematical sum. -/

def i32MIN : Int := -(2 ^ 31)

def i32MAX : Int := 2 ^ 31 - 1

/-- Wrap an integer into the i32 twos-complement range. -/
def i32wrap (n : Int) : Int := (n + 2 ^ 31) % 2 ^ 32 - 2 ^ 31

/-- `i32::overflowing_add`: the wrapped sum and the overflow flag. -/
def overflowing_add (a b : Int) : Int × Bool :=
  (i32wrap (a + b), decide (i32wrap (a + b) ≠ a + b))

/-- `i32::overflowing_add` as an engine callable over the arity-2 argument
tuple. -/
def overflowing_addT (p : Int × Int) : Int × Bool :=
  overflowing_add p.1 p.2

/-- The continuation of end-to-end scenario 2:
`|res, over| if over { None } else { Some(res) }`, an engine callable over
the arity-2 argument tuple `(i32, bool)`. -/
def checkedCont (p : Int × Bool) : Option Int :=
  if p.2 then none else some p.1

/-- Scenario 2 combinator, built with the variadic engine chain from
src/unstable/chain.rs: `chain(i32::overflowing_add, |res, over| ...)`. -/
def my_checked_add (p : Int × Int) : Option Int :=
  (uchain overflowing_addT checkedCont).call_once p

/-- The meaning of restricting the variadic engine to arity 1, used for
the refinement claims: a unary stable callable becomes an engine callable
over the one-element argument tuple. -/
def liftUnary {A B : Type} (f : A → B) : Tuple1 A → B :=
  fun t => f t.fst

/-! ## Claim theorems -/

/-- C1: invoking `Chain(f, g)` with an argument tuple first invokes `f` on
it, auto-tuples the output of `f` into the argument tuple shape `g`
expects, invokes `g` on that tuple, and returns the output of `g`; in
particular for unary `f` and `g` the stable `chain(f, g)(a)` equals
`g(f(a))`. -/
theorem chain_invokes_f_then_g {A B C D : Type} [AutoTuple B C]
    (f : A → B) (g : C → D) (args : A)
    {X Y Z : Type} (f1 : X → Y) (g1 : Y → Z) (a : X) :
    (uchain f g).call_once args = g (AutoTuple.auto_tuple (f args)) ∧
    chain f1 g1 a = g1 (f1 a) :=
  ⟨rfl, rfl⟩

/-- C2: `Chain(f, g)` and `Compose(g, f)` are observably equivalent on
every argument tuple, and the stable `chain(f, g)(a)` equals
`compose(g, f)(a)` for every input. -/
theorem chain_compose_duality {A B C D : Type} [AutoTuple B C]
    (f : A → B) (g : C → D) (args : A)
    {X Y Z : Type} (f1 : X → Y) (g1 : Y → Z) (a : X) :
    (Chain.new f g).call_once args = (Compose.new g f).call_once args ∧
    chain f1 g1 a = compose g1 f1 a :=
  ⟨rfl, rfl⟩

/-- C3: applying `curry(f)` to the arguments one at a time returns the
direct call output once all of them are supplied (shown at target arities
3 and 2, generically in the element types); each application before the
last yields a still-pending curry value that is pure accumulation — the
state after k applications holds exactly the first k arguments together
with the wrapped callable, unapplied — and the wrapped callable is invoked
exactly at the final application. -/
theorem curry_direct_call_equiv {α β γ ρ : Type} (f : α × β × γ → ρ)
    (a : α) (b : β) (c : γ) {σ τ π : Type} (h : σ × τ → π) (x : σ) (y : τ) :
    ((((curry f).app3_0 a).app3_1 b).app3_2 c = f (a, b, c)) ∧
    ((curry f).app3_0 a = ⟨⟨a⟩, f⟩) ∧
    (((curry f).app3_0 a).app3_1 b = ⟨(a, b), f⟩) ∧
    (((curry h).app2_0 x).app2_1 y = h (x, y)) :=
  ⟨rfl, rfl, rfl, rfl⟩

/-- C4: auto-tupling any value to target arity 1 wraps it as the single
tuple element, unconditionally; even a value that is itself tuple-shaped
is wrapped whole, never decomposed. -/
theorem auto_tuple_arity1_wraps {α β γ : Type} (v : α) (p : β × γ) :
    (AutoTuple.auto_tuple v : Tuple1 α) = ⟨v⟩ ∧
    (AutoTuple.auto_tuple p : Tuple1 (β × γ)) = ⟨p⟩ :=
  ⟨rfl, rfl⟩

/-- C5: `supply(f, a)` binds `a` as the first argument and is a callable
over the remaining argument tuple (arity reduced by one, visible in its
type); repeated supply calls bind arguments left to right in call order,
and after exactly `arity` supply calls the result is a zero-argument
callable whose invocation returns the direct call output (shown at arity
3, generically in the element types). -/
theorem supply_saturation {α β γ R : Type} (f : α × β × γ → R)
    (a : α) (b : β) (c : γ) :
    supply (supply (supply f a) b) c () = f (a, b, c) ∧
    (∀ rest : β × γ, supply f a rest = f (a, rest.1, rest.2)) ∧
    (∀ rest : Tuple1 γ, supply (supply f a) b rest = f (a, b, rest.fst)) :=
  ⟨rfl, fun _ => rfl, fun _ => rfl⟩

/-- C6: `flip` is an involution — `flip(flip(f))` agrees with `f` on every
argument tuple (shown at arity 3, generically in the element types) — and
for the stable two-argument wrapper, `flip_args(flip_args(f))(a, b)`
equals `f(a, b)` and `flip_args(f)(b, a)` equals `f(a, b)`. -/
theorem flip_involution {α β γ R : Type} (f : α × β × γ → R) (t : α × β × γ)
    {X Y S : Type} (h : X → Y → S) (x : X) (y : Y) :
    flip (α × β × γ) (flip (γ × β × α) f) t = f t ∧
    flip_args (flip_args h) x y = h x y ∧
    flip_args h y x = h x y :=
  ⟨rfl, rfl, rfl⟩

/-- C7: the engine chain of `i32::overflowing_add` with
`|res, over| if over { None } else { Some(res) }` maps `(i32::MAX, 1)` to
`None` — the first callable yields the wrapped sum `i32::MIN` with
overflow flag `true`, which the second callable maps to `None` — and maps
the non-overflowing input `(8, 16)` to `Some(24)`. -/
theorem checked_add_scenario :
    overflowing_add i32MAX 1 = (i32MIN, true) ∧
    my_checked_add (i32MAX, 1) = none ∧
    my_checked_add (8, 16) = some 24 := by
  refine ⟨?_, ?_, ?_⟩ <;> decide

/-- C8: the stable fixed-arity subset is behaviorally consistent with the
variadic engine restricted to arity 1: for all unary `f` and `g` and every
input `a`, stable `chain(f, g)(a)` equals the engine `Chain(f, g)` invoked
with the one-element argument tuple, and stable `compose(f, g)(a)` equals
the engine `Compose(f, g)` invoked with the one-element argument tuple. -/
theorem stable_consistent_with_engine {A B C : Type}
    (f : A → B) (g : B → C) (a : A) :
    chain f g a = (uchain (liftUnary f) (liftUnary g)).call_once ⟨a⟩ ∧
    compose g f a = (Compose.new (liftUnary g) (liftUnary f)).call_once ⟨a⟩ :=
  ⟨rfl, rfl⟩

/-- C9: for callables that are read-only-reinvocable (satisfy the `Fn`
laws), the three invocation paths of `Chain` agree: `call_once` and `call`
return the same output, and `call_mut` returns that output with the state
unchanged, so the chain can be invoked repeatedly with results identical
to a single by-value invocation. -/
theorem chain_capability_paths {Sf Sg A B C D : Type} [AutoTuple B C]
    (cf : Callable Sf A B) (cg : Callable Sg C D)
    (hf : cf.IsFn) (hg : cg.IsFn) (s : Sf × Sg) (args : A) :
    (chainCallable cf cg).call_once s args = (chainCallable cf cg).call s args ∧
    (chainCallable cf cg).call_mut s args =
      ((chainCallable cf cg).call s args, s) := by
  constructor
  · simp [chainCallable, hf.2, hg.2]
  · simp [chainCallable, hf.1, hg.1]

/-- A concrete read-only chain part for exercising the capability paths. -/
def cAddTwo : Callable Unit (Tuple1 Nat) Nat :=
  pureCallable (fun t => t.fst + 2)

/-- A concrete read-only chain part for exercising the capability paths. -/
def cMulThree : Callable Unit (Tuple1 Nat) Nat :=
  pureCallable (fun t => t.fst * 3)

/-- Witness for C9: the three paths agree on a concrete read-only chain at
a concrete input and state. -/
theorem chain_capability_paths_witness :
    cAddTwo.IsFn ∧ cMulThree.IsFn ∧
    ((chainCallable cAddTwo cMulThree).call_once ((), ()) ⟨3⟩ =
        (chainCallable cAddTwo cMulThree).call ((), ()) ⟨3⟩ ∧
      (chainCallable cAddTwo cMulThree).call_mut ((), ()) ⟨3⟩ =
        ((chainCallable cAddTwo cMulThree).call ((), ()) ⟨3⟩, ((), ()))) :=
  ⟨⟨fun _ _ => rfl, fun _ _ => rfl⟩, ⟨fun _ _ => rfl, fun _ _ => rfl⟩,
    chain_capability_paths cAddTwo cMulThree
      ⟨fun _ _ => rfl, fun _ _ => rfl⟩ ⟨fun _ _ => rfl, fun _ _ => rfl⟩
      ((), ()) ⟨3⟩⟩

/-- C10: the `.chain` extension method accepts only a continuation over
the one-element argument tuple holding the whole output of `f`, and
`f.chain(g)(args)` equals `g` applied to that single argument; the
`.chain_ut` variant is the one that untuples, so `f.chain_ut(g)(args)`
equals `g` invoked with the output of `f` spread as its flat argument
tuple. -/
theorem fnext_chain_unary {A B D : Type} (f : A → B) (g : Tuple1 B → D)
    (g2 : B → D) (args : A) :
    (FnExt.chainM f g).call_once args = g ⟨f args⟩ ∧
    (FnExt.chain_ut f g2).call_once args = g2 (f args) :=
  ⟨rfl, rfl⟩

end Fntools

